/-
Verification of the Vector Index & Retrieval Engine of the
company_policy_chatbot repository, against its specification.

The embedding translates `src/vector_store/faiss_manager.py`
(class FAISSManager), `src/retrieval/retriever.py` (class
DocumentRetriever) and the constants of `src/utils/config.py` into Lean.

Modelling conventions:
* IEEE-754 single-precision floats are modelled as exact rationals (ℚ).
* The square root used inside `faiss.normalize_L2` is not expressible in ℚ,
  so every definition is parametrised by a function `sqrt : ℚ → ℚ` standing
  for the library's float square-root routine; no property of `sqrt` is
  assumed anywhere.
* The FAISS library calls (`faiss.IndexFlatL2`, `index.add`, `index.search`)
  are modelled by their documented behaviour: an `IndexFlatL2` stores rows
  and `search` returns, for a query, the `k` (squared-L2-distance, id) pairs
  with smallest distance in ascending order, ties broken by insertion order,
  padding with (FLT_MAX, -1) when `k` exceeds the number of stored rows.
* Disk I/O (`faiss.write_index` / `read_index`, `pickle.dump` / `load`,
  `os.path.exists`) is modelled by an explicit `Store` value holding the two
  optional durable artifacts; I/O itself is assumed not to fail.
* Python exceptions are modelled with `Except`; `CustomException` carries
  its message string, mirroring `utils/exceptions.py` where `__str__`
  returns `error_message`.
-/
import Mathlib

namespace PolicyChatbot

/-- A vector: ordered sequence of floats, modelled as rationals. -/
abbrev Vec : Type := List ℚ

/-- `utils/exceptions.py`: `CustomException(error_message)`;
`__str__` returns the message. -/
structure CustomException where
  msg : String
deriving DecidableEq, Repr

/-- `utils/config.py` line 22: `TOP_K_RESULTS = 2`. -/
def Config.TOP_K_RESULTS : Nat := 2

/-- `utils/config.py` line 23: `SIMILARITY_THRESHOLD = 0.7`. -/
def Config.SIMILARITY_THRESHOLD : ℚ := 7 / 10

/-- Squared L2 norm of a vector (`Σ xᵢ²`). -/
def sqNorm (v : Vec) : ℚ := (v.map fun x => x * x).sum

/-- `faiss.normalize_L2`: divide each component by the L2 norm of the row.
The float square root is the parameter `sqrt`. -/
def normalizeL2 (sqrt : ℚ → ℚ) (v : Vec) : Vec :=
  v.map fun x => x / sqrt (sqNorm v)

/-- Squared Euclidean distance between two vectors, the metric of
`faiss.IndexFlatL2` (componentwise, over the common length). -/
def sqDist (u v : Vec) : ℚ :=
  (List.zipWith (fun a b => (a - b) * (a - b)) u v).sum

/-- `faiss_manager.py` line 81: `similarity_score = 1.0 / (1.0 + score)`. -/
def toSimilarity (d : ℚ) : ℚ := 1 / (1 + d)

/-- The FAISS `IndexFlatL2` object: its fixed dimension `d` and its stored
rows `xb`, in insertion order.  The manager stores rows already normalized
(`faiss.normalize_L2` is applied before every `index.add`). -/
structure FaissIndexFlatL2 where
  d : Nat
  xb : List Vec
deriving DecidableEq, Repr

/-- FLT_MAX, the distance FAISS reports for padding slots
when `k` exceeds the number of stored rows. -/
def FLT_MAX : ℚ := (2 ^ 24 - 1) * 2 ^ 104

/-- Ascending order on (distance, id) pairs used by the FAISS search:
smaller distance first, ties broken by smaller id (= insertion order). -/
def distLE (a b : ℚ × ℤ) : Prop :=
  a.1 < b.1 ∨ (a.1 = b.1 ∧ a.2 ≤ b.2)

instance : DecidableRel distLE := fun a b => by
  unfold distLE; infer_instance

instance : IsTotal (ℚ × ℤ) distLE where
  total a b := by
    unfold distLE
    rcases lt_trichotomy a.1 b.1 with h | h | h
    · exact Or.inl (Or.inl h)
    · rcases le_total a.2 b.2 with h2 | h2
      · exact Or.inl (Or.inr ⟨h, h2⟩)
      · exact Or.inr (Or.inr ⟨h.symm, h2⟩)
    · exact Or.inr (Or.inl h)

instance : IsTrans (ℚ × ℤ) distLE where
  trans a b c hab hbc := by
    unfold distLE at *
    rcases hab with h1 | ⟨h1, h1'⟩ <;> rcases hbc with h2 | ⟨h2, h2'⟩
    · exact Or.inl (h1.trans h2)
    · exact Or.inl (h2 ▸ h1)
    · exact Or.inl (h1 ▸ h2)
    · exact Or.inr ⟨h1.trans h2, h1'.trans h2'⟩

/-- The (distance, id) pair of every stored row for query `qn`:
row `i` contributes `(sqDist qn xb[i], i)`. -/
def distPairs (qn : Vec) (xb : List Vec) : List (ℚ × ℤ) :=
  xb.enum.map fun p => (sqDist qn p.2, (p.1 : ℤ))

/-- `index.search(q, k)` of a FAISS `IndexFlatL2`: the `k` nearest stored
rows as (squared distance, id) pairs, ascending by distance, ties by
insertion order; slots beyond the number of stored rows are padded with
`(FLT_MAX, -1)`. -/
def faissSearch (idx : FaissIndexFlatL2) (qn : Vec) (k : Nat) : List (ℚ × ℤ) :=
  ((distPairs qn idx.xb).insertionSort distLE).take k ++
    List.replicate
      (k - ((distPairs qn idx.xb).insertionSort distLE).length)
      (FLT_MAX, -1)

/-- One element of the result list built by `FAISSManager.search`
(lines 84-87): the Python dict `{'metadata': ..., 'score': ...}`. -/
structure SearchResult (α : Type) where
  metadata : α
  score : ℚ
deriving DecidableEq, Repr

/-- In-memory state of `FAISSManager`: `self.index` (None when
uninitialized) and `self.metadata`.  Metadata records are opaque (`α`). -/
structure FAISSManager (α : Type) where
  index : Option FaissIndexFlatL2
  metadata : List α
deriving DecidableEq, Repr

/-- `FAISSManager.__init__`: `self.index = None`, `self.metadata = []`. -/
def FAISSManager.init (α : Type) : FAISSManager α := ⟨none, []⟩

/-- The two durable artifacts under the configured path:
`vector_index.index` (FAISS blob) and `vector_index.metadata` (pickle).
`none` models an absent file. -/
structure Store (α : Type) where
  indexFile : Option FaissIndexFlatL2
  metadataFile : Option (List α)
deriving DecidableEq, Repr

variable {α : Type}

/-- `FAISSManager.create_index` (lines 25-41).  `dimension = len(embeddings[0])`
raises on an empty batch before `self.index` is touched; `self.index` is then
assigned the fresh empty `IndexFlatL2` BEFORE the numpy conversion, so a
ragged batch leaves an initialized-but-empty index behind; otherwise the
normalized rows are added.  Any failure is re-raised as `CustomException`. -/
def create_index (sqrt : ℚ → ℚ) (m : FAISSManager α) (embeddings : List Vec) :
    Except CustomException Unit × FAISSManager α :=
  match embeddings with
  | [] =>
      (.error ⟨"Failed to create FAISS index: list index out of range"⟩, m)
  | e0 :: rest =>
      let d := e0.length
      if (e0 :: rest).all fun v => v.length = d then
        (.ok (), { index := some ⟨d, (e0 :: rest).map (normalizeL2 sqrt)⟩,
                   metadata := m.metadata })
      else
        (.error ⟨"Failed to create FAISS index: setting an array element with a sequence"⟩,
         { index := some ⟨d, []⟩, metadata := m.metadata })

/-- `FAISSManager.add_documents` (lines 44-60).  If `self.index is None`,
delegates to `create_index`; otherwise normalizes and appends the batch,
which fails (state unchanged) when the batch is empty, ragged, or its width
differs from the index dimension.  On success — and only then —
`self.metadata.extend(metadata)` runs.  NOTE: the source never compares
`len(embeddings)` with `len(metadata)`. -/
def add_documents (sqrt : ℚ → ℚ) (m : FAISSManager α)
    (embeddings : List Vec) (metadata : List α) :
    Except CustomException Unit × FAISSManager α :=
  match m.index with
  | none =>
      match create_index sqrt m embeddings with
      | (.error e, m') => (.error e, m')
      | (.ok _, m') => (.ok (), { m' with metadata := m'.metadata ++ metadata })
  | some idx =>
      match embeddings with
      | [] => (.error ⟨"Failed to add embeddings to FAISS index: shape error"⟩, m)
      | e0 :: rest =>
          if ((e0 :: rest).all fun v => v.length = e0.length) ∧ e0.length = idx.d then
            (.ok (), { index := some ⟨idx.d, idx.xb ++ (e0 :: rest).map (normalizeL2 sqrt)⟩,
                       metadata := m.metadata ++ metadata })
          else
            (.error ⟨"Failed to add embeddings to FAISS index: shape mismatch"⟩, m)

/-- Lines 83-87 of `search`: the guard `idx < len(self.metadata) and idx >= 0`
followed by `self.metadata[idx]`; a pair passing the guard yields a result
record with `score = 1/(1+d)`. -/
def lookupGuard (metadata : List α) (p : ℚ × ℤ) : Option (SearchResult α) :=
  if p.2 < (metadata.length : ℤ) ∧ 0 ≤ p.2 then
    (metadata[p.2.toNat]?).map fun x => ⟨x, toSimilarity p.1⟩
  else none

/-- `FAISSManager.search` (lines 63-94).  Fails when `self.index is None`;
`k = k or Config.TOP_K_RESULTS` (Python truthiness: `None` and `0` both fall
back to the default); the query must match the index dimension or the FAISS
call raises; otherwise the query is normalized, FAISS returns `k`
(distance, id) slots, and the result list keeps the guarded entries.
Returns the pair `(scores[0].tolist(), results)`. -/
def search (sqrt : ℚ → ℚ) (m : FAISSManager α) (q : Vec) (k : Option Nat) :
    Except CustomException (List ℚ × List (SearchResult α)) :=
  match m.index with
  | none => .error ⟨"FAISS index is not initialized"⟩
  | some idx =>
      let kk := match k with
        | none => Config.TOP_K_RESULTS
        | some n => if n = 0 then Config.TOP_K_RESULTS else n
      if q.length = idx.d then
        let qn := normalizeL2 sqrt q
        let slots := faissSearch idx qn kk
        .ok (slots.map Prod.fst, slots.filterMap (lookupGuard m.metadata))
      else
        .error ⟨"FAISS search failed: query dimension mismatch"⟩

/-- `FAISSManager.save_index` (lines 97-118).  Fails when the index is
uninitialized; otherwise writes both artifacts (I/O assumed to succeed). -/
def save_index (m : FAISSManager α) (s : Store α) :
    Except CustomException Unit × Store α :=
  match m.index with
  | none => (.error ⟨"FAISS index is not initialized"⟩, s)
  | some idx => (.ok (), ⟨some idx, some m.metadata⟩)

/-- `FAISSManager.load_index` (lines 121-141).  When either artifact is
absent, logs a warning and returns with the in-memory state unchanged (not
an error); when both are present, replaces `self.index` and `self.metadata`
wholesale.  NOTE: the source performs no length-consistency check between
the two artifacts. -/
def load_index (m : FAISSManager α) (s : Store α) :
    Except CustomException Unit × FAISSManager α :=
  match s.indexFile, s.metadataFile with
  | some idx, some md => (.ok (), ⟨some idx, md⟩)
  | some _, none => (.ok (), m)
  | none, some _ => (.ok (), m)
  | none, none => (.ok (), m)

/-- `FAISSManager.reset_index` (lines 143-151): `self.index = None`,
`self.metadata = []`; the body cannot raise. -/
def reset_index (m : FAISSManager α) : FAISSManager α := ⟨none, []⟩

/-- `DocumentRetriever.retrieve_documents` (retriever.py lines 17-31).
The query-embedding step is an external network call, so its outcome is a
parameter `embedRes`.  Any exception — from embedding or from `search` — is
caught and re-raised as `CustomException(f"Retrieval failed: {str(e)}")`.
On success returns `vector_results` exactly as `search` produced them: no
threshold filtering is applied anywhere (`Config.SIMILARITY_THRESHOLD` is
never read). -/
def retrieve_documents (sqrt : ℚ → ℚ) (m : FAISSManager α)
    (embedRes : Except CustomException Vec) :
    Except CustomException (List (SearchResult α)) :=
  match embedRes with
  | .error e => .error ⟨"Retrieval failed: " ++ e.msg⟩
  | .ok q =>
      match search sqrt m q none with
      | .error e => .error ⟨"Retrieval failed: " ++ e.msg⟩
      | .ok (_, results) => .ok results

/-- One public operation on a `FAISSManager` instance paired with its
durable store (the entry points of §6 of the spec). -/
inductive Op (α : Type) where
  | add (embeddings : List Vec) (metadata : List α)
  | save
  | load
  | reset
deriving DecidableEq, Repr

/-- Run one public operation; a raised exception leaves the caller with the
states the method left behind. -/
def runOp (sqrt : ℚ → ℚ) (st : FAISSManager α × Store α) :
    Op α → FAISSManager α × Store α
  | .add es ms => ((add_documents sqrt st.1 es ms).2, st.2)
  | .save => (st.1, (save_index st.1 st.2).2)
  | .load => ((load_index st.1 st.2).2, st.2)
  | .reset => (reset_index st.1, st.2)

/-- Run a sequence of public operations. -/
def runOps (sqrt : ℚ → ℚ) (st : FAISSManager α × Store α)
    (ops : List (Op α)) : FAISSManager α × Store α :=
  ops.foldl (runOp sqrt) st

/-- Number of stored vectors (`index.ntotal` in FAISS, 0 when `None`). -/
def vecCount (m : FAISSManager α) : Nat :=
  match m.index with
  | none => 0
  | some idx => idx.xb.length

/-- The manager invariant of the spec: `len(vectors) == len(metadata)`. -/
def MInv (m : FAISSManager α) : Prop := vecCount m = m.metadata.length

/-- The durable artifacts, when both present, agree in length. -/
def SInv (s : Store α) : Prop :=
  ∀ idx md, s.indexFile = some idx → s.metadataFile = some md →
    idx.xb.length = md.length

/-- An operation is arity-correct when, if it is an `add`, it supplies as
many metadata records as vectors. -/
def arityOK : Op α → Bool
  | .add es ms => es.length == ms.length
  | .save => true
  | .load => true
  | .reset => true

/-- The metadata record an entry of the FAISS result slot list contributes
(`self.metadata[idx]` under the guard of line 83), ignoring the score. -/
def lookupMeta (metadata : List α) (p : ℚ × ℤ) : Option α :=
  if p.2 < (metadata.length : ℤ) ∧ 0 ≤ p.2 then metadata[p.2.toNat]? else none

/-! Concrete values used to exercise the definitions. -/

/-- A stand-in for the float square root used on concrete inputs whose
squared norms are all 1 (so the true square root is also 1). -/
def sqrtOne : ℚ → ℚ := fun _ => 1

/-- An empty durable store: neither artifact exists. -/
def emptyStore (α : Type) : Store α := ⟨none, none⟩

/-- A populated manager: one stored (unit) vector `[1,0]` with metadata
record `"a"` — the state reached by `add_documents([[1,0]], ["a"])` on a
fresh manager. -/
def exMgr1 : FAISSManager String := ⟨some ⟨2, [[1, 0]]⟩, ["a"]⟩

/-- A manager with three stored unit vectors and matching metadata. -/
def exMgr3 : FAISSManager String :=
  ⟨some ⟨2, [[1, 0], [0, 1], [1, 0]]⟩, ["a", "b", "c"]⟩

/-- A durable store whose two artifacts disagree in length: the vector
blob holds one row, the metadata blob two records. -/
def corruptStore : Store String := ⟨some ⟨1, [[1]]⟩, some ["a", "b"]⟩

/-! Theorems. -/

/-- C5: for every query, a `search` call on an uninitialized index —
including immediately after a `reset` and before any new `add` — fails with
the index-not-initialized error (the source's
`CustomException("FAISS index is not initialized")`) rather than returning
an empty result. -/
theorem C5_search_uninitialized {α : Type} (sqrt : ℚ → ℚ)
    (m mPrior : FAISSManager α) (q : Vec) (k : Option Nat)
    (h : m.index = none) :
    search sqrt m q k = .error ⟨"FAISS index is not initialized"⟩ ∧
    search sqrt (reset_index mPrior) q k =
      .error ⟨"FAISS index is not initialized"⟩ := by
  constructor
  · unfold search
    rw [h]
  · rfl

/-- Witness for C5 at concrete inputs: the fresh manager, and `exMgr3`
after a reset. -/
theorem C5_search_uninitialized_witness :
    search sqrtOne (FAISSManager.init String) [1, 0] none =
      .error ⟨"FAISS index is not initialized"⟩ ∧
    search sqrtOne (reset_index exMgr3) [1, 0] none =
      .error ⟨"FAISS index is not initialized"⟩ :=
  C5_search_uninitialized sqrtOne (FAISSManager.init String) exMgr3 [1, 0]
    none rfl

/-- C6: on a populated manager, `save` then `reset` then `load` restores the
in-memory state exactly, so a subsequent `search` returns results identical
to a `search` before the cycle (in the exact-arithmetic model, equal on the
nose); both `save` and `load` succeed. -/
theorem C6_roundtrip {α : Type} (sqrt : ℚ → ℚ) (m : FAISSManager α)
    (s : Store α) (idx : FaissIndexFlatL2) (q : Vec) (k : Option Nat)
    (h : m.index = some idx) :
    (save_index m s).1 = .ok () ∧
    (load_index (reset_index m) (save_index m s).2).1 = .ok () ∧
    (load_index (reset_index m) (save_index m s).2).2 = m ∧
    search sqrt (load_index (reset_index m) (save_index m s).2).2 q k =
      search sqrt m q k := by
  obtain ⟨mi, md⟩ := m
  cases h
  exact ⟨rfl, rfl, rfl, rfl⟩

/-- Witness for C6: the populated one-vector manager with an empty store. -/
theorem C6_roundtrip_witness :
    (save_index exMgr1 (emptyStore String)).1 = .ok () ∧
    (load_index (reset_index exMgr1) (save_index exMgr1 (emptyStore String)).2).1 =
      .ok () ∧
    (load_index (reset_index exMgr1) (save_index exMgr1 (emptyStore String)).2).2 =
      exMgr1 ∧
    search sqrtOne
        (load_index (reset_index exMgr1) (save_index exMgr1 (emptyStore String)).2).2
        [0, 1] none =
      search sqrtOne exMgr1 [0, 1] none :=
  C6_roundtrip sqrtOne exMgr1 (emptyStore String) ⟨2, [[1, 0]]⟩ [0, 1] none rfl

/-- C9 counterexample: a provider failure is NOT propagated unchanged — the
retriever catches it and re-raises a different `CustomException` whose
message is prefixed with "Retrieval failed: ". -/
theorem C9_counterexample :
    retrieve_documents sqrtOne (FAISSManager.init String)
        (.error ⟨"Failed to generate embeddings: quota exceeded"⟩) =
      .error ⟨"Retrieval failed: Failed to generate embeddings: quota exceeded"⟩ ∧
    CustomException.mk
        "Retrieval failed: Failed to generate embeddings: quota exceeded" ≠
      CustomException.mk "Failed to generate embeddings: quota exceeded" := by
  exact ⟨rfl, by decide⟩

/-- C9 amended: when the embedding step fails, the retriever makes no
retry and substitutes no default value — the caller always receives an
error — but the error is re-wrapped: the result is a new `CustomException`
whose message prefixes "Retrieval failed: " to the provider's message. -/
theorem C9_amended {α : Type} (sqrt : ℚ → ℚ) (m : FAISSManager α)
    (e : CustomException) :
    retrieve_documents sqrt m (.error e) =
      .error ⟨"Retrieval failed: " ++ e.msg⟩ := rfl

/-- C3 counterexample: the retriever does not filter by
`SIMILARITY_THRESHOLD`: a result scoring 1/3 < 7/10 is returned, not
discarded. -/
theorem C3_counterexample :
    retrieve_documents sqrtOne exMgr1 (.ok [0, 1]) =
      .ok [⟨"a", 1 / 3⟩] ∧
    (1 / 3 : ℚ) < Config.SIMILARITY_THRESHOLD := by
  constructor
  · with_unfolding_all rfl
  · norm_num [Config.SIMILARITY_THRESHOLD]

/-- C3 amended: the retriever returns the search results exactly as the
vector store produced them — no entry is discarded by any threshold
comparison (`Config.SIMILARITY_THRESHOLD` is never consulted), rank order
is preserved trivially, and an empty result list is a valid non-error
outcome. -/
theorem C3_amended {α : Type} (sqrt : ℚ → ℚ) (m : FAISSManager α) (q : Vec)
    (ds : List ℚ) (rs : List (SearchResult α))
    (h : search sqrt m q none = .ok (ds, rs)) :
    retrieve_documents sqrt m (.ok q) = .ok rs := by
  simp only [retrieve_documents, h]

/-- Witness for C3 amended at the one-vector manager. -/
theorem C3_amended_witness :
    retrieve_documents sqrtOne exMgr1 (.ok [0, 1]) = .ok [⟨"a", 1 / 3⟩] :=
  C3_amended sqrtOne exMgr1 [0, 1] [2, FLT_MAX] [⟨"a", 1 / 3⟩]
    (by with_unfolding_all rfl)

/-- C7 counterexample: `load` performs no length-consistency check — on a
store whose vector blob holds 1 row but whose metadata blob holds 2
records, `load` succeeds (no CorruptIndex-style error) and installs the
mismatched state. -/
theorem C7_counterexample :
    (load_index (FAISSManager.init String) corruptStore).1 = .ok () ∧
    (load_index (FAISSManager.init String) corruptStore).2 =
      ⟨some ⟨1, [[1]]⟩, ["a", "b"]⟩ ∧
    vecCount (load_index (FAISSManager.init String) corruptStore).2 = 1 ∧
    ((load_index (FAISSManager.init String) corruptStore).2).metadata.length
      = 2 :=
  ⟨rfl, rfl, rfl, rfl⟩

/-- C7 amended: when either durable artifact is absent, `load` is not an
error and leaves the in-memory state unchanged (so a fresh manager remains
uninitialized and a subsequent `search` fails with the
index-not-initialized error, not a corruption error); when both artifacts
are present, `load` replaces vectors and metadata wholesale — but it never
compares their lengths, so a disagreement is installed silently. -/
theorem C7_amended {α : Type} (m : FAISSManager α) (s : Store α) :
    ((s.indexFile = none ∨ s.metadataFile = none) →
      load_index m s = (.ok (), m)) ∧
    (∀ (sqrt : ℚ → ℚ) (q : Vec) (k : Option Nat),
      (s.indexFile = none ∨ s.metadataFile = none) → m.index = none →
      search sqrt (load_index m s).2 q k =
        .error ⟨"FAISS index is not initialized"⟩) ∧
    (∀ idx md, s.indexFile = some idx → s.metadataFile = some md →
      load_index m s = (.ok (), ⟨some idx, md⟩)) := by
  obtain ⟨si, sm⟩ := s
  refine ⟨?_, ?_, ?_⟩
  · rintro (h | h)
    · replace h : si = none := h
      subst h; cases sm <;> rfl
    · replace h : sm = none := h
      subst h; cases si <;> rfl
  · intro sqrt q k habs hm
    have hload : (load_index m ⟨si, sm⟩).2 = m := by
      rcases habs with h | h
      · replace h : si = none := h
        subst h; cases sm <;> rfl
      · replace h : sm = none := h
        subst h; cases si <;> rfl
    rw [hload]
    unfold search
    rw [hm]
  · intro idx md h1 h2
    replace h1 : si = some idx := h1
    replace h2 : sm = some md := h2
    subst h1; subst h2
    rfl

/-- Witness for C7 amended: the three branches at concrete stores. -/
theorem C7_amended_witness :
    load_index (FAISSManager.init String) (emptyStore String) =
      (.ok (), FAISSManager.init String) ∧
    search sqrtOne
        (load_index (FAISSManager.init String) (emptyStore String)).2
        [1, 0] none = .error ⟨"FAISS index is not initialized"⟩ ∧
    load_index (FAISSManager.init String) corruptStore =
      (.ok (), ⟨some ⟨1, [[1]]⟩, ["a", "b"]⟩) :=
  ⟨(C7_amended (FAISSManager.init String) (emptyStore String)).1 (Or.inl rfl),
   (C7_amended (FAISSManager.init String) (emptyStore String)).2.1 sqrtOne
     [1, 0] none (Or.inl rfl) rfl,
   (C7_amended (FAISSManager.init String) corruptStore).2.2 ⟨1, [[1]]⟩
     ["a", "b"] rfl rfl⟩

/-- C2 counterexample: `add_documents` called with 2 vectors but 3 metadata
records does NOT fail — it succeeds and changes the state (vector count
goes from 0 to 2, metadata count from 0 to 3). -/
theorem C2_counterexample :
    (add_documents sqrtOne (FAISSManager.init String) [[1, 0], [0, 1]]
        ["a", "b", "c"]).1 = .ok () ∧
    vecCount (add_documents sqrtOne (FAISSManager.init String)
        [[1, 0], [0, 1]] ["a", "b", "c"]).2 = 2 ∧
    (add_documents sqrtOne (FAISSManager.init String) [[1, 0], [0, 1]]
        ["a", "b", "c"]).2.metadata.length = 3 := by
  refine ⟨?_, ?_, ?_⟩ <;> with_unfolding_all rfl

/-- C2 amended: `add_documents` performs no arity comparison at all.  Any
call whose embedding batch passes the shape checks (non-empty, rectangular,
width matching the index dimension when one exists) succeeds regardless of
the metadata count: all vectors are appended (after normalization) and all
metadata records are appended, so the vector count grows by the batch size
and the metadata sequence by `len(metadata)` — even when the two differ. -/
theorem C2_amended {α : Type} (sqrt : ℚ → ℚ) (m : FAISSManager α)
    (e0 : Vec) (es : List Vec) (ms : List α)
    (hrect : ∀ v ∈ e0 :: es, v.length = e0.length)
    (hdim : ∀ idx, m.index = some idx → e0.length = idx.d) :
    (add_documents sqrt m (e0 :: es) ms).1 = .ok () ∧
    vecCount (add_documents sqrt m (e0 :: es) ms).2 =
      vecCount m + (e0 :: es).length ∧
    (add_documents sqrt m (e0 :: es) ms).2.metadata = m.metadata ++ ms := by
  have hall : (e0 :: es).all (fun v => decide (v.length = e0.length)) = true := by
    simp only [List.all_eq_true, decide_eq_true_eq]
    exact hrect
  cases hm : m.index with
  | none =>
      refine ⟨?_, ?_, ?_⟩ <;>
        simp only [add_documents, create_index, hm, hall, if_true, vecCount,
          List.length_map, List.length_cons] <;>
        try omega
  | some idx =>
      have hd : e0.length = idx.d := hdim idx hm
      refine ⟨?_, ?_, ?_⟩ <;>
        (simp only [add_documents, hm]
         rw [if_pos ⟨by simpa using hrect, hd⟩]) <;>
        simp only [vecCount, hm, List.length_append, List.length_map,
          List.length_cons] <;>
        try omega

/-- Witness for C2 amended: a call with 2 vectors and 5 metadata records on
the fresh manager succeeds and appends everything. -/
theorem C2_amended_witness :
    (∀ v ∈ [[1, 0], [0, 1]], List.length v = List.length [(1 : ℚ), 0]) ∧
    (add_documents sqrtOne (FAISSManager.init String) [[1, 0], [0, 1]]
        ["v", "w", "x", "y", "z"]).1 = .ok () ∧
    vecCount (add_documents sqrtOne (FAISSManager.init String)
        [[1, 0], [0, 1]] ["v", "w", "x", "y", "z"]).2 =
      vecCount (FAISSManager.init String) + 2 ∧
    (add_documents sqrtOne (FAISSManager.init String) [[1, 0], [0, 1]]
        ["v", "w", "x", "y", "z"]).2.metadata =
      (FAISSManager.init String).metadata ++ ["v", "w", "x", "y", "z"] :=
  ⟨by decide,
   C2_amended sqrtOne (FAISSManager.init String) [1, 0] [[0, 1]]
     ["v", "w", "x", "y", "z"] (by decide) (fun idx h => by cases h)⟩

/-! Supporting lemmas about distances, scores and the FAISS search. -/

theorem sqDist_nonneg (u v : Vec) : 0 ≤ sqDist u v := by
  unfold sqDist
  induction u generalizing v with
  | nil => simp
  | cons a u ih =>
      cases v with
      | nil => simp
      | cons b v =>
          simp only [List.zipWith_cons_cons, List.sum_cons]
          have h1 : 0 ≤ (a - b) * (a - b) := mul_self_nonneg _
          have h2 := ih v
          linarith

theorem toSimilarity_pos {d : ℚ} (h : 0 ≤ d) : 0 < toSimilarity d := by
  unfold toSimilarity
  positivity

theorem toSimilarity_le_one {d : ℚ} (h : 0 ≤ d) : toSimilarity d ≤ 1 := by
  unfold toSimilarity
  rw [div_le_one (by linarith)]
  linarith

theorem toSimilarity_lt_of_lt {d1 d2 : ℚ} (h0 : 0 ≤ d1) (h : d1 < d2) :
    toSimilarity d2 < toSimilarity d1 := by
  unfold toSimilarity
  apply div_lt_div_of_pos_left one_pos (by linarith) (by linarith)

theorem mem_distPairs {qn : Vec} {xb : List Vec} {p : ℚ × ℤ}
    (hp : p ∈ distPairs qn xb) :
    ∃ (i : ℕ) (v : Vec), xb[i]? = some v ∧ p = (sqDist qn v, (i : ℤ)) := by
  unfold distPairs at hp
  rcases List.mem_map.1 hp with ⟨⟨i, v⟩, hmem, hEq⟩
  exact ⟨i, v, List.mem_enum_iff_getElem?.1 hmem, hEq.symm⟩

theorem mem_faissSearch {idx : FaissIndexFlatL2} {qn : Vec} {k : Nat}
    {p : ℚ × ℤ} (hp : p ∈ faissSearch idx qn k) :
    p ∈ distPairs qn idx.xb ∨ p = (FLT_MAX, -1) := by
  unfold faissSearch at hp
  rcases List.mem_append.1 hp with h | h
  · exact Or.inl ((List.perm_insertionSort distLE _).mem_iff.1
      (List.mem_of_mem_take h))
  · exact Or.inr (List.eq_of_mem_replicate h)

theorem mem_of_lookupGuard {md : List α} {p : ℚ × ℤ} {r : SearchResult α}
    (h : lookupGuard md p = some r) :
    (p.2 < (md.length : ℤ) ∧ 0 ≤ p.2) ∧
    ∃ x, md[p.2.toNat]? = some x ∧ r = ⟨x, toSimilarity p.1⟩ := by
  unfold lookupGuard at h
  split at h
  · rcases Option.map_eq_some'.1 h with ⟨x, hx, hr⟩
    exact ⟨by assumption, x, hx, hr.symm⟩
  · exact absurd h (by simp)

/-- C4: every score a successful `search` returns is obtained from a
squared distance `d ≥ 0` via `score = 1/(1+d)`, hence lies in (0, 1];
distance 0 maps to score 1, and the conversion is strictly decreasing in
the distance. -/
theorem C4_scores {α : Type} (sqrt : ℚ → ℚ) (m : FAISSManager α) (q : Vec)
    (k : Option Nat) (ds : List ℚ) (rs : List (SearchResult α))
    (h : search sqrt m q k = .ok (ds, rs)) :
    (∀ r ∈ rs, ∃ d : ℚ, 0 ≤ d ∧ r.score = toSimilarity d) ∧
    (∀ r ∈ rs, 0 < r.score ∧ r.score ≤ 1) ∧
    toSimilarity 0 = 1 ∧
    (∀ d1 d2 : ℚ, 0 ≤ d1 → d1 < d2 → toSimilarity d2 < toSimilarity d1) := by
  have key : ∀ r ∈ rs, ∃ d : ℚ, 0 ≤ d ∧ r.score = toSimilarity d := by
    intro r hr
    cases hm : m.index with
    | none => simp [search.eq_def, hm] at h
    | some idx =>
        simp only [search.eq_def, hm] at h
        split at h
        · simp only [Except.ok.injEq, Prod.mk.injEq] at h
          rw [← h.2] at hr
          rcases List.mem_filterMap.1 hr with ⟨p, hpmem, hpr⟩
          rcases mem_of_lookupGuard hpr with ⟨hguard, x, hx, hrEq⟩
          refine ⟨p.1, ?_, by rw [hrEq]⟩
          rcases mem_faissSearch hpmem with hdp | hpad
          · rcases mem_distPairs hdp with ⟨i, v, hv, hpEq⟩
            rw [hpEq]
            exact sqDist_nonneg _ v
          · rw [hpad] at hguard
            exact absurd hguard.2 (by decide)
        · cases h
  refine ⟨key, ?_, ?_, ?_⟩
  · intro r hr
    rcases key r hr with ⟨d, hd, hscore⟩
    rw [hscore]
    exact ⟨toSimilarity_pos hd, toSimilarity_le_one hd⟩
  · unfold toSimilarity; norm_num
  · intro d1 d2 h0 hlt
    exact toSimilarity_lt_of_lt h0 hlt

/-- Witness for C4 at the three-vector manager. -/
theorem C4_scores_witness :
    (∀ r ∈ [(⟨"a", 1⟩ : SearchResult String), ⟨"c", 1⟩],
      ∃ d : ℚ, 0 ≤ d ∧ r.score = toSimilarity d) ∧
    (∀ r ∈ [(⟨"a", 1⟩ : SearchResult String), ⟨"c", 1⟩],
      0 < r.score ∧ r.score ≤ 1) ∧
    toSimilarity 0 = 1 ∧
    (∀ d1 d2 : ℚ, 0 ≤ d1 → d1 < d2 → toSimilarity d2 < toSimilarity d1) :=
  C4_scores sqrtOne exMgr3 [1, 0] none [0, 0]
    [⟨"a", 1⟩, ⟨"c", 1⟩] (by with_unfolding_all rfl)

/-! Invariant preservation for C1. -/

theorem runOp_preserves {sqrt : ℚ → ℚ} {st : FAISSManager α × Store α}
    {op : Op α} (hM : MInv st.1) (hS : SInv st.2)
    (hA : arityOK op = true) :
    MInv (runOp sqrt st op).1 ∧ SInv (runOp sqrt st op).2 := by
  obtain ⟨m, s⟩ := st
  cases op with
  | add es ms =>
      have hlen : es.length = ms.length := by
        simpa [arityOK] using hA
      refine ⟨?_, hS⟩
      show MInv (add_documents sqrt m es ms).2
      cases hm : m.index with
      | none =>
          have hmd : m.metadata = [] := by
            have h0 : vecCount m = 0 := by simp [vecCount, hm]
            have := hM
            unfold MInv at this
            rw [h0] at this
            exact List.length_eq_zero.1 this.symm
          cases es with
          | nil =>
              simp only [add_documents, create_index, hm]
              exact hM
          | cons e0 rest =>
              by_cases hc :
                  (e0 :: rest).all (fun v => decide (v.length = e0.length)) = true
              · simp only [add_documents, create_index, hm, hc, if_true, MInv,
                  vecCount, List.length_map, List.length_cons, hmd,
                  List.length_append, List.nil_append, List.length_nil]
                simpa [hmd] using hlen
              · simp only [add_documents, create_index, hm,
                  Bool.not_eq_true] at hc ⊢
                rw [if_neg (by simp [hc])]
                simp [MInv, vecCount, hmd]
      | some idx =>
          have hv : idx.xb.length = m.metadata.length := by
            have := hM
            unfold MInv at this
            simpa [vecCount, hm] using this
          cases es with
          | nil => simpa [add_documents, hm, MInv] using hM
          | cons e0 rest =>
              by_cases hc :
                  ((e0 :: rest).all (fun v => decide (v.length = e0.length)))
                    ∧ e0.length = idx.d
              · simp only [add_documents, hm]
                rw [if_pos hc]
                simp only [MInv, vecCount, List.length_append,
                  List.length_map, List.length_cons]
                simp only [List.length_cons] at hlen
                omega
              · simp only [add_documents, hm]
                rw [if_neg hc]
                exact hM
  | save =>
      refine ⟨hM, ?_⟩
      show SInv (save_index m s).2
      cases hm : m.index with
      | none => simpa [save_index, hm] using hS
      | some idx =>
          intro idx' md' h1 h2
          simp only [save_index, hm] at h1 h2
          cases h1; cases h2
          have := hM
          unfold MInv at this
          simpa [vecCount, hm] using this
  | load =>
      refine ⟨?_, hS⟩
      show MInv (load_index m s).2
      obtain ⟨si, sm⟩ := s
      cases hsi : si with
      | none => cases sm <;> simpa [load_index] using hM
      | some idx =>
          cases hsm : sm with
          | none => simpa [load_index] using hM
          | some md =>
              have := hS idx md (by simp [hsi]) (by simp [hsm])
              simp [load_index, MInv, vecCount, this]
  | reset =>
      exact ⟨rfl, hS⟩

theorem runOps_preserves {sqrt : ℚ → ℚ} {st : FAISSManager α × Store α}
    {ops : List (Op α)} (hM : MInv st.1) (hS : SInv st.2)
    (hA : ∀ op ∈ ops, arityOK op = true) :
    MInv (runOps sqrt st ops).1 ∧ SInv (runOps sqrt st ops).2 := by
  induction ops generalizing st with
  | nil => exact ⟨hM, hS⟩
  | cons op rest ih =>
      have hstep := @runOp_preserves α sqrt st op hM hS
        (hA op (List.mem_cons_self op rest))
      exact ih hstep.1 hstep.2 fun o ho => hA o (List.mem_cons_of_mem op ho)

/-- C1 counterexample: the invariant `len(vectors) == len(metadata)` does
NOT hold after every public operation — starting from a fresh instance, a
well-formed `add` (1 vector, 1 record) followed by a mismatched `add`
(1 vector, 2 records) completes without error and leaves 2 vectors against
3 metadata records. -/
theorem C1_counterexample :
    ¬ MInv (runOps sqrtOne (FAISSManager.init String, emptyStore String)
        [.add [[1]] ["a"], .add [[1]] ["b", "c"]]).1 := by
  have h1 : vecCount (runOps sqrtOne
      (FAISSManager.init String, emptyStore String)
      [.add [[1]] ["a"], .add [[1]] ["b", "c"]]).1 = 2 := by
    with_unfolding_all rfl
  have h2 : (runOps sqrtOne (FAISSManager.init String, emptyStore String)
      [.add [[1]] ["a"], .add [[1]] ["b", "c"]]).1.metadata.length = 3 := by
    with_unfolding_all rfl
  unfold MInv
  omega

/-- C1 amended: provided every `add` in the sequence supplies exactly as
many metadata records as vectors, and the durable artifacts (when both
present) agree in length, the invariant `len(vectors) == len(metadata)`
holds after every prefix of any sequence of public operations (`add`,
`save`, `load`, `reset`); moreover a successful `add` on a populated index
appends vectors and metadata strictly in parallel, so position `i` of both
sequences keeps referring to the same logical chunk. -/
theorem C1_invariant {α : Type} (sqrt : ℚ → ℚ)
    (st : FAISSManager α × Store α) (ops : List (Op α))
    (hM : MInv st.1) (hS : SInv st.2)
    (hA : ∀ op ∈ ops, arityOK op = true) :
    (∀ j : Nat, MInv (runOps sqrt st (ops.take j)).1 ∧
      SInv (runOps sqrt st (ops.take j)).2) ∧
    (∀ (m m' : FAISSManager α) (idx : FaissIndexFlatL2) (es : List Vec)
        (ms : List α), m.index = some idx →
      add_documents sqrt m es ms = (.ok (), m') →
      m'.index = some ⟨idx.d, idx.xb ++ es.map (normalizeL2 sqrt)⟩ ∧
      m'.metadata = m.metadata ++ ms) := by
  constructor
  · intro j
    exact runOps_preserves hM hS fun op ho =>
      hA op (List.mem_of_mem_take ho)
  · intro m m' idx es ms hm hadd
    cases es with
    | nil => simp [add_documents, hm] at hadd
    | cons e0 rest =>
        simp only [add_documents, hm] at hadd
        split at hadd
        · rw [Prod.mk.injEq] at hadd
          rw [← hadd.2]
          exact ⟨rfl, rfl⟩
        · rw [Prod.mk.injEq] at hadd
          cases hadd.1

/-- Witness for C1 amended: a three-operation sequence (well-formed add,
save, load) from the fresh instance keeps the invariant at every prefix. -/
theorem C1_invariant_witness :
    MInv (runOps sqrtOne (FAISSManager.init String, emptyStore String)
      (List.take 2 [.add [[1, 0]] ["a"], .save, .load])).1 ∧
    SInv (runOps sqrtOne (FAISSManager.init String, emptyStore String)
      (List.take 2 [.add [[1, 0]] ["a"], .save, .load])).2 :=
  (C1_invariant sqrtOne (FAISSManager.init String, emptyStore String)
    [.add [[1, 0]] ["a"], .save, .load] rfl
    (fun idx md h _ => by cases h) (by decide)).1 2

/-! Supporting lemmas for C8 and C10: the result list's metadata
projection, index distinctness, and completeness of the FAISS selection. -/

theorem lookupGuard_map_metadata (md : List α) (p : ℚ × ℤ) :
    (lookupGuard md p).map SearchResult.metadata = lookupMeta md p := by
  unfold lookupGuard lookupMeta
  split
  · cases md[p.2.toNat]? <;> rfl
  · rfl

theorem filterMap_lookupGuard_metadata (md : List α) (l : List (ℚ × ℤ)) :
    (l.filterMap (lookupGuard md)).map SearchResult.metadata =
      l.filterMap (lookupMeta md) := by
  rw [List.map_filterMap]
  exact List.filterMap_congr fun p _ => lookupGuard_map_metadata md p

theorem lookupGuard_pad (md : List α) :
    lookupGuard md (FLT_MAX, -1) = none := by
  unfold lookupGuard
  rw [if_neg]
  rintro ⟨-, h⟩
  exact absurd h (by decide)

theorem distPairs_length (qn : Vec) (xb : List Vec) :
    (distPairs qn xb).length = xb.length := by
  simp [distPairs]

theorem distPairs_snd (qn : Vec) (xb : List Vec) :
    (distPairs qn xb).map Prod.snd =
      (List.range xb.length).map Int.ofNat := by
  unfold distPairs
  rw [List.map_map, ← List.enum_map_fst xb, List.map_map]
  rfl

theorem distPairs_snd_nodup (qn : Vec) (xb : List Vec) :
    ((distPairs qn xb).map Prod.snd).Nodup := by
  rw [distPairs_snd]
  exact (List.nodup_range _).map_on fun x _ y _ h => Int.ofNat_inj.1 h

theorem filterMap_getElem_range (md : List α) :
    (List.range md.length).filterMap (fun i => md[i]?) = md := by
  induction md with
  | nil => rfl
  | cons a tl ih =>
      rw [List.length_cons, List.range_succ_eq_map, List.filterMap_cons,
        List.filterMap_map]
      simp only [List.getElem?_cons_zero]
      have : ((fun i => (a :: tl)[i]?) ∘ Nat.succ) = fun i => tl[i]? := by
        funext i
        simp [Function.comp]
      rw [this, ih]

theorem filterMap_lookupMeta_distPairs (qn : Vec) (xb : List Vec)
    (md : List α) (hlen : md.length = xb.length) :
    (distPairs qn xb).filterMap (lookupMeta md) = md := by
  unfold distPairs
  rw [List.filterMap_map]
  have hcongr : ∀ p ∈ xb.enum,
      (lookupMeta md ∘ fun p : ℕ × Vec => (sqDist qn p.2, (p.1 : ℤ))) p =
        (fun i => md[i]?) p.1 := by
    rintro ⟨i, v⟩ hmem
    have hi : i < xb.length := by
      have h := List.mem_enum_iff_getElem?.1 hmem
      exact (List.getElem?_eq_some.1 h).1
    simp only [Function.comp, lookupMeta, Int.toNat_natCast]
    rw [if_pos]
    constructor
    · rw [hlen]
      exact_mod_cast hi
    · exact Int.natCast_nonneg i
  rw [List.filterMap_congr hcongr]
  have : xb.enum.filterMap (fun p => (fun i => md[i]?) p.1) =
      (xb.enum.map Prod.fst).filterMap (fun i => md[i]?) := by
    rw [List.filterMap_map]
    rfl
  rw [this, List.enum_map_fst, ← hlen, filterMap_getElem_range]

theorem length_filterMap_lookupMeta (md : List α) (l : List (ℚ × ℤ)) :
    (l.filterMap (lookupMeta md)).length =
      (l.filter fun p =>
        decide (p.2 < (md.length : ℤ) ∧ 0 ≤ p.2)).length := by
  induction l with
  | nil => rfl
  | cons p tl ih =>
      rw [List.filterMap_cons, List.filter_cons]
      by_cases hg : p.2 < (md.length : ℤ) ∧ 0 ≤ p.2
      · have hb : p.2.toNat < md.length := by omega
        have hlook : lookupMeta md p = some md[p.2.toNat] := by
          unfold lookupMeta
          rw [if_pos hg, List.getElem?_eq_getElem hb]
        rw [hlook, if_pos (decide_eq_true hg)]
        simp [ih]
      · have hlook : lookupMeta md p = none := by
          unfold lookupMeta
          rw [if_neg hg]
        rw [hlook, if_neg (by simpa [decide_eq_true_eq] using hg)]
        exact ih

theorem nodup_int_length_le (L : Nat) (l : List ℤ) (hnd : l.Nodup)
    (hmem : ∀ i ∈ l, 0 ≤ i ∧ i < (L : ℤ)) : l.length ≤ L := by
  have hnd2 : (l.map Int.toNat).Nodup := by
    refine hnd.map_on fun x hx y hy hxy => ?_
    have h1 := hmem x hx
    have h2 := hmem y hy
    omega
  have hsub : (l.map Int.toNat).toFinset ⊆ Finset.range L := by
    intro n hn
    rw [List.mem_toFinset] at hn
    rcases List.mem_map.1 hn with ⟨i, hi, hEq⟩
    have := hmem i hi
    rw [Finset.mem_range]
    omega
  have := Finset.card_le_card hsub
  rw [List.toFinset_card_of_nodup hnd2, Finset.card_range,
    List.length_map] at this
  exact this

/-- Monotone form of the score conversion used for ranking. -/
theorem toSimilarity_le_of_le {d1 d2 : ℚ} (h0 : 0 ≤ d1) (h : d1 ≤ d2) :
    toSimilarity d2 ≤ toSimilarity d1 := by
  rcases eq_or_lt_of_le h with hEq | hlt
  · rw [hEq]
  · exact le_of_lt (toSimilarity_lt_of_lt h0 hlt)

theorem length_faissSearch_filterMap_le (md : List α)
    (idx : FaissIndexFlatL2) (qn : Vec) (kk : Nat) :
    ((faissSearch idx qn kk).filterMap (lookupGuard md)).length ≤
      md.length := by
  rw [← List.length_map _ SearchResult.metadata,
    filterMap_lookupGuard_metadata]
  unfold faissSearch
  rw [List.filterMap_append, List.filterMap_replicate]
  have hpad : lookupMeta md (FLT_MAX, -1) = none := by
    unfold lookupMeta
    rw [if_neg]
    rintro ⟨-, hneg⟩
    exact absurd hneg (by decide)
  rw [hpad, List.append_nil, length_filterMap_lookupMeta]
  have hsub1 : (List.filter
      (fun p => decide (p.2 < (md.length : ℤ) ∧ 0 ≤ p.2))
      (List.take kk ((distPairs qn idx.xb).insertionSort
        distLE))).Sublist
      ((distPairs qn idx.xb).insertionSort distLE) :=
    (List.filter_sublist _).trans (List.take_sublist _ _)
  have hnd : ((((distPairs qn idx.xb).insertionSort
      distLE)).map Prod.snd).Nodup := by
    rw [((List.perm_insertionSort distLE _).map Prod.snd).nodup_iff]
    exact distPairs_snd_nodup _ _
  refine nodup_int_length_le md.length _
    (hnd.sublist (hsub1.map Prod.snd)) ?_ |>.trans_eq'
    (List.length_map _ _).symm
  intro i hi
  rcases List.mem_map.1 hi with ⟨p, hp, hpi⟩
  have hmem := List.mem_filter.1 hp
  have hguard := of_decide_eq_true hmem.2
  omega

/-- C10: every successful `search` only returns metadata records stored at
valid positions — each returned record is an element of `self.metadata`,
and the guarded lookup ensures the number of results never exceeds the
number of stored metadata records. -/
theorem C10_search_safety {α : Type} (sqrt : ℚ → ℚ) (m : FAISSManager α)
    (q : Vec) (k : Option Nat) (ds : List ℚ) (rs : List (SearchResult α))
    (h : search sqrt m q k = .ok (ds, rs)) :
    rs.length ≤ m.metadata.length ∧ ∀ r ∈ rs, r.metadata ∈ m.metadata := by
  cases hm : m.index with
  | none => simp [search.eq_def, hm] at h
  | some idx =>
      simp only [search.eq_def, hm] at h
      split at h
      · simp only [Except.ok.injEq, Prod.mk.injEq] at h
        obtain ⟨-, hrs⟩ := h
        subst hrs
        constructor
        · exact length_faissSearch_filterMap_le m.metadata idx
            (normalizeL2 sqrt q) _
        · intro r hr
          rcases List.mem_filterMap.1 hr with ⟨p, -, hpr⟩
          rcases mem_of_lookupGuard hpr with ⟨-, x, hx, hrEq⟩
          rw [hrEq]
          exact List.getElem?_mem hx
      · cases h

/-- Witness for C10 at the three-vector manager. -/
theorem C10_search_safety_witness :
    List.length [(⟨"a", 1⟩ : SearchResult String), ⟨"c", 1⟩] ≤
      exMgr3.metadata.length ∧
    ∀ r ∈ [(⟨"a", 1⟩ : SearchResult String), ⟨"c", 1⟩],
      r.metadata ∈ exMgr3.metadata :=
  C10_search_safety sqrtOne exMgr3 [1, 0] none [0, 0]
    [⟨"a", 1⟩, ⟨"c", 1⟩] (by with_unfolding_all rfl)

/-- C8: when `k` exceeds the number of stored entries, a `search` on a
populated, consistent index succeeds and returns exactly the stored
entries — every stored metadata record appears exactly once (the result's
metadata projection is a permutation of `self.metadata`) — ranked by
nonincreasing score (i.e. nondecreasing distance), with no padding entry
leaking into the results. -/
theorem C8_k_exceeds {α : Type} (sqrt : ℚ → ℚ) (m : FAISSManager α)
    (idx : FaissIndexFlatL2) (q : Vec) (k : Nat)
    (hm : m.index = some idx) (hq : q.length = idx.d)
    (hmeta : m.metadata.length = idx.xb.length)
    (hk : idx.xb.length ≤ k) (hk0 : k ≠ 0) :
    ∃ ds rs, search sqrt m q (some k) = .ok (ds, rs) ∧
      rs.length = idx.xb.length ∧
      (rs.map SearchResult.metadata).Perm m.metadata ∧
      List.Pairwise (fun a b : SearchResult α => b.score ≤ a.score) rs := by
  have hsearch : search sqrt m q (some k) =
      .ok ((faissSearch idx (normalizeL2 sqrt q) k).map Prod.fst,
        (faissSearch idx (normalizeL2 sqrt q) k).filterMap
          (lookupGuard m.metadata)) := by
    simp only [search.eq_def, hm]
    rw [if_neg hk0, if_pos hq]
  have hslen : ((distPairs (normalizeL2 sqrt q) idx.xb).insertionSort
      distLE).length = idx.xb.length := by
    rw [List.length_insertionSort, distPairs_length]
  have hfe : faissSearch idx (normalizeL2 sqrt q) k =
      ((distPairs (normalizeL2 sqrt q) idx.xb).insertionSort distLE) ++
        List.replicate (k - idx.xb.length) (FLT_MAX, -1) := by
    unfold faissSearch
    rw [List.take_of_length_le (by omega), hslen]
  have hrs : (faissSearch idx (normalizeL2 sqrt q) k).filterMap
      (lookupGuard m.metadata) =
      ((distPairs (normalizeL2 sqrt q) idx.xb).insertionSort
        distLE).filterMap (lookupGuard m.metadata) := by
    rw [hfe, List.filterMap_append, List.filterMap_replicate,
      lookupGuard_pad, List.append_nil]
  have hperm : ((((distPairs (normalizeL2 sqrt q) idx.xb).insertionSort
      distLE).filterMap (lookupGuard m.metadata)).map
        SearchResult.metadata).Perm m.metadata := by
    rw [filterMap_lookupGuard_metadata]
    have h1 := (List.perm_insertionSort distLE
      (distPairs (normalizeL2 sqrt q) idx.xb)).filterMap
      (lookupMeta m.metadata)
    rw [filterMap_lookupMeta_distPairs _ _ _ hmeta] at h1
    exact h1
  refine ⟨_, _, hsearch, ?_, ?_, ?_⟩
  · rw [hrs, ← List.length_map _ SearchResult.metadata, hperm.length_eq,
      hmeta]
  · rw [hrs]
    exact hperm
  · rw [hrs]
    refine List.pairwise_filterMap.2 ?_
    have hs : List.Pairwise distLE ((distPairs (normalizeL2 sqrt q)
        idx.xb).insertionSort distLE) :=
      List.sorted_insertionSort distLE _
    refine hs.imp_of_mem ?_
    intro a b ha hb hab
    intro x hx y hy
    rcases mem_of_lookupGuard (Option.mem_def.1 hx) with ⟨-, xa, -, hxEq⟩
    rcases mem_of_lookupGuard (Option.mem_def.1 hy) with ⟨-, yb, -, hyEq⟩
    rw [hxEq, hyEq]
    have ha0 : 0 ≤ a.1 := by
      have hmemA := (List.mem_insertionSort distLE).1 ha
      rcases mem_distPairs hmemA with ⟨i, v, -, hEq⟩
      rw [hEq]
      exact sqDist_nonneg _ v
    rcases hab with hlt | ⟨hEq, -⟩
    · exact toSimilarity_le_of_le ha0 (le_of_lt hlt)
    · rw [hEq]

/-- Witness for C8: searching the three-vector manager with `k = 5`. -/
theorem C8_k_exceeds_witness :
    ∃ ds rs, search sqrtOne exMgr3 [1, 0] (some 5) = .ok (ds, rs) ∧
      rs.length = 3 ∧
      (rs.map SearchResult.metadata).Perm exMgr3.metadata ∧
      List.Pairwise (fun a b : SearchResult String => b.score ≤ a.score) rs :=
  C8_k_exceeds sqrtOne exMgr3 ⟨2, [[1, 0], [0, 1], [1, 0]]⟩ [1, 0] 5 rfl rfl
    rfl (by decide) (by decide)

end PolicyChatbot
